import Mathlib

/-!
Shallow embedding of the Hades agent's plugin supervision and framed
pipe protocol (src/unnamed/part_000, package plugin, and
src/SDK/transport/client.go, package transport), together with proofs
about the embedded operations.

Bytes are modelled as natural numbers below 256; a pipe direction is a
list of bytes.  `bufio.Reader` is modelled by its capacity and the
byte stream that remains to be consumed (buffered-but-unread bytes are
part of that stream).  Machine integers use Nat with explicit `% 2 ^ w`
where wrap-around matters.  External message schemas (protobuf
Record/Task marshalling) are parameters: an `unm` function models
`Unmarshal` and a `marshal` function models `Marshal`/`Size` (with the
protobuf contract `Size() = len(Marshal())`).
-/

namespace Hades

instance {ε α : Type} [DecidableEq ε] [DecidableEq α] :
    DecidableEq (Except ε α) := fun a b =>
  match a, b with
  | .ok x, .ok y =>
    if h : x = y then .isTrue (by rw [h]) else .isFalse (by simp [h])
  | .error x, .error y =>
    if h : x = y then .isTrue (by rw [h]) else .isFalse (by simp [h])
  | .ok _, .error _ => .isFalse (by simp)
  | .error _, .ok _ => .isFalse (by simp)

/-- Error classes distinguished by the Go code's `errors.Is` tests:
`eof` stands for `io.EOF` / `io.ErrUnexpectedEOF` / `io.ErrClosedPipe` /
`os.ErrClosed` (stream end or closed), `bufferFull` for
`bufio.ErrBufferFull`, `badData` for a deserialization failure. -/
inductive Err
  | eof
  | bufferFull
  | badData
deriving DecidableEq

/-- A `bufio.Reader`: the configured buffer capacity (`bufio.NewReaderSize`)
and the bytes of the underlying stream not yet consumed. -/
structure Reader where
  cap : Nat
  data : List Nat
deriving DecidableEq

/-- `io.ReadFull(r, buf)` with `len(buf) = n`: reads exactly `n` bytes
(looping over short reads, not limited by the buffer capacity), or fails
with an end-of-stream error when fewer are available. -/
def readFull (n : Nat) (r : Reader) : Except Err (List Nat) × Reader :=
  if n ≤ r.data.length then
    (.ok (r.data.take n), { r with data := r.data.drop n })
  else
    (.error .eof, { r with data := [] })

/-- `bufio.Reader.Peek(n)`: fails with `ErrBufferFull` when `n` exceeds the
configured capacity, fails with an end-of-stream error when fewer than `n`
bytes remain; never consumes anything. -/
def peek (n : Nat) (r : Reader) : Except Err (List Nat) × Reader :=
  if r.cap < n then
    (.error .bufferFull, r)
  else if n ≤ r.data.length then
    (.ok (r.data.take n), r)
  else
    (.error .eof, r)

/-- `bufio.Reader.Discard(n)`: consumes exactly `n` bytes or fails at
end of stream. -/
def discard (n : Nat) (r : Reader) : Except Err Unit × Reader :=
  if n ≤ r.data.length then
    (.ok (), { r with data := r.data.drop n })
  else
    (.error .eof, { r with data := [] })

/-- `binary.LittleEndian.PutUint32`: the four little-endian bytes of
`n % 2 ^ 32` (the Go conversion `uint32(n)` truncates). -/
def u32encode (n : Nat) : List Nat :=
  [n % 256, n / 256 % 256, n / 65536 % 256, n / 16777216 % 256]

/-- `binary.LittleEndian.Uint32` on a four-byte list. -/
def u32decode (bs : List Nat) : Nat :=
  match bs with
  | [b0, b1, b2, b3] => b0 + 256 * b1 + 65536 * b2 + 16777216 * b3
  | _ => 0

/-- `binary.Read(r, binary.LittleEndian, &l)` for a `uint32`:
`io.ReadFull` of four bytes, then little-endian decoding. -/
def readUint32LE (r : Reader) : Except Err Nat × Reader :=
  match readFull 4 r with
  | (.ok bs, r1) => (.ok (u32decode bs), r1)
  | (.error e, r1) => (.error e, r1)

/-- One on-wire frame: a 4-byte little-endian length followed by the
payload.  This is the byte sequence produced both by the client's
`SendRecord`/`SendElkeid` (length write followed by payload write) and by
the supervisor's `Task` loop (single combined buffer `dst`). -/
def frameBytes (payload : List Nat) : List Nat :=
  u32encode payload.length ++ payload

/-- `Client.ReceiveTask` (src/SDK/transport/client.go): read a `uint32`
length prefix, `Peek` that many bytes, `Discard` them, and only then
`Unmarshal` the peeked bytes.  `unm` models `Task.Unmarshal`
(`none` = deserialization error). -/
def ReceiveTask {τ : Type} (unm : List Nat → Option τ) (r : Reader) :
    Except Err τ × Reader :=
  match readUint32LE r with
  | (.error e, r1) => (.error e, r1)
  | (.ok l, r1) =>
    match peek l r1 with
    | (.error e, r2) => (.error e, r2)
    | (.ok buf, r2) =>
      match discard l r2 with
      | (.error e, r3) => (.error e, r3)
      | (.ok _, r3) =>
        match unm buf with
        | some t => (.ok t, r3)
        | none => (.error .badData, r3)

/-- The supervisor-side state touched by the receive path: the 128 KiB
buffered reader created in `NewPlugin` (`bufio.NewReaderSize(rx_r, 1024*128)`)
and the four `uint64` traffic counters of `Plugin`. -/
structure PluginSt where
  reader : Reader
  rxBytes : Nat
  rxCnt : Nat
  txBytes : Nat
  txCnt : Nat
deriving DecidableEq

/-- The buffer size passed to `bufio.NewReaderSize` in `NewPlugin`. -/
def pluginReaderSize : Nat := 1024 * 128

/-- `Plugin.receiveDataWithSize` (src/unnamed/part_000): `binary.Read` a
`uint32` length, `io.ReadFull` that many payload bytes, `Unmarshal` them,
and on success bump the counters — the code increments `txCnt`/`txBytes`
(not `rxCnt`/`rxBytes`) by 1 and by the payload length `l`, with `uint64`
wrap-around. -/
def receiveDataWithSize {ρ : Type} (unm : List Nat → Option ρ) (p : PluginSt) :
    Except Err ρ × PluginSt :=
  match readUint32LE p.reader with
  | (.error e, r1) => (.error e, { p with reader := r1 })
  | (.ok l, r1) =>
    match readFull l r1 with
    | (.error e, r2) => (.error e, { p with reader := r2 })
    | (.ok message, r2) =>
      match unm message with
      | none => (.error .badData, { p with reader := r2 })
      | some rec =>
        (.ok rec,
         { p with
             reader := r2
             txCnt := (p.txCnt + 1) % 2 ^ 64
             txBytes := (p.txBytes + l) % 2 ^ 64 })

/-- `Plugin.Receive` (src/unnamed/part_000), run with fuel: loop on
`receiveDataWithSize`; on success forward the record to
`transport.DTransfer.Transmission(rec, false)` (modelled as appending the
pair `(rec, false)` to the delivered list); on `bufio.ErrBufferFull` log
and continue (skip); on an error that is not EOF/closed log and continue;
on EOF/closed exit the loop. -/
def receiveLoop {ρ : Type} (unm : List Nat → Option ρ) :
    Nat → PluginSt → List (ρ × Bool) × PluginSt
  | 0, p => ([], p)
  | fuel + 1, p =>
    match receiveDataWithSize unm p with
    | (.ok rec, p1) =>
      let out := receiveLoop unm fuel p1
      ((rec, false) :: out.1, out.2)
    | (.error .bufferFull, p1) => receiveLoop unm fuel p1
    | (.error .badData, p1) => receiveLoop unm fuel p1
    | (.error .eof, p1) => ([], p1)

/-- The byte sequence `Plugin.Task` writes for one task: a `4 + s` buffer
with `MarshalToSizedBuffer` filling `dst[4:]` and `PutUint32` writing
`uint32(s)` into `dst[:4]` — i.e. exactly one frame. -/
def taskFrameBytes (payload : List Nat) : List Nat :=
  frameBytes payload

/-- Where the `Plugin.Task` dispatcher loop currently stands: parked at its
`select` (able to receive from `taskCh`), busy marshalling/writing one
task, or returned (after `done` fired or a write failed). -/
inductive DState
  | atSelect
  | working
  | exited
deriving DecidableEq

/-- Go channel try-send semantics (a `select` with a `default` branch):
the send succeeds exactly when the channel has buffer space or a receiver
is blocked on it. -/
def chanTrySend (capacity buffered receivers : Nat) : Bool :=
  decide (buffered < capacity) || decide (0 < receivers)

/-- Number of receivers blocked on `taskCh` for a given dispatcher state:
only a dispatcher parked at its `select` can take from the channel. -/
def taskChReceivers (d : DState) : Nat :=
  match d with
  | .atSelect => 1
  | .working => 0
  | .exited => 0

/-- The error message built by `errors.New` in `Plugin.SendTask`. -/
def sendTaskBusyMsg : String :=
  "plugin is processing task or context has been canceled"

/-- `Plugin.SendTask` (src/unnamed/part_000): a `select` with a `default`
branch on the unbuffered `taskCh` (`make(chan proto.Task)`, capacity 0):
the send succeeds iff the dispatcher is ready to receive, otherwise the
busy error is returned immediately. -/
def SendTask (d : DState) : Except String Unit :=
  if chanTrySend 0 0 (taskChReceivers d) then .ok ()
  else .error sendTaskBusyMsg

/-- One step of the `Plugin.Task` dispatcher loop.  At the `select`, the
scheduler decides which ready case wins (`takeTask` = a sender's task was
taken, possible whether or not `done` also fired, matching Go's random
choice among ready `select` cases); with no task on offer, a fired `done`
makes the loop return.  A working dispatcher finishes its write and parks
again, or returns on a write error (`writeErr`); a returned loop stays
returned. -/
def dispatcherStep (doneClosed takeTask writeErr : Bool) (d : DState) : DState :=
  match d with
  | .atSelect =>
    if takeTask then .working
    else if doneClosed then .exited
    else .atSelect
  | .working => if writeErr then .exited else .atSelect
  | .exited => .exited

/-- The per-plugin traffic counters and the last sample time of
`Plugin.GetState`; wall-clock seconds are modelled by rationals
(`float64` in the code). -/
structure CounterSt where
  rxBytes : Nat
  rxCnt : Nat
  txBytes : Nat
  txCnt : Nat
  updateTime : ℚ
deriving DecidableEq

/-- The four rates returned by `Plugin.GetState`, in the code's order:
`RxSpeed, TxSpeed, RxTPS, TxTPS`. -/
structure Rates where
  rxSpeed : ℚ
  txSpeed : ℚ
  rxTPS : ℚ
  txTPS : ℚ
deriving DecidableEq

/-- `Plugin.GetState` (src/unnamed/part_000): compute the elapsed interval
since `updateTime`; if it is nonzero, atomically swap each counter with 0
and divide by the interval; otherwise leave the counters untouched and
return the zero-valued named results.  `updateTime` is always advanced. -/
def GetState (now : ℚ) (p : CounterSt) : Rates × CounterSt :=
  let instant := now - p.updateTime
  if instant ≠ 0 then
    (⟨(p.rxBytes : ℚ) / instant, (p.txBytes : ℚ) / instant,
      (p.rxCnt : ℚ) / instant, (p.txCnt : ℚ) / instant⟩,
     { p with rxBytes := 0, txBytes := 0, rxCnt := 0, txCnt := 0,
              updateTime := now })
  else
    (⟨0, 0, 0, 0⟩, { p with updateTime := now })

/-- A telemetry record as seen by the client transport: the `Timestamp`
field it stamps, plus opaque payload data. -/
structure Record where
  timestamp : Int
  data : List Nat
deriving DecidableEq

/-- The plugin-side `Client` state relevant to sending: the bytes written
to the agent→wire direction, the optional send hook, and the injected
clock's current Unix time. -/
structure Client where
  output : List Nat
  hook : Option (Record → Except Err Unit)
  clockNow : Int

/-- `Client.SendRecord` (src/SDK/transport/client.go): stamp
`rec.Timestamp` from the injected clock; if a hook is installed delegate
to it entirely; otherwise `Marshal` first (returning its error if it
fails), then write `uint32(len(buf))` little-endian followed by `buf`.
Returns the result, the client state, and the record as mutated through
its pointer. -/
def SendRecord (marshal : Record → Except Err (List Nat)) (c : Client)
    (rec : Record) : Except Err Unit × Client × Record :=
  let stamped := { rec with timestamp := c.clockNow }
  match c.hook with
  | some h => (h stamped, c, stamped)
  | none =>
    match marshal stamped with
    | .error e => (.error e, c, stamped)
    | .ok buf =>
      (.ok (), { c with output := c.output ++ frameBytes buf }, stamped)

/-- `Client.SendElkeid` (src/SDK/transport/client.go): write
`uint32(rec.Size())` little-endian first, then `rec.Marshal()` and write
the result — no timestamp stamping and no hook consultation.  `size`
models `Record.Size` (the protobuf contract `Size() = len(Marshal())` is
a hypothesis where needed). -/
def SendElkeid (size : Record → Nat) (marshal : Record → Except Err (List Nat))
    (c : Client) (rec : Record) : Except Err Unit × Client × Record :=
  let c1 := { c with output := c.output ++ u32encode (size rec) }
  match marshal rec with
  | .error e => (.error e, c1, rec)
  | .ok buf => (.ok (), { c1 with output := c1.output ++ buf }, rec)

/-!
Interleaving model of `Plugin.Wait` racing `Plugin.Shutdown`
(src/unnamed/part_000).  Each goroutine is a straight-line program with a
program counter; a scheduler chooses which one advances.  `os.File.Close`
is modelled faithfully to the Go runtime: a second `Close` on the same
`*os.File` returns `os.ErrClosed` without releasing the descriptor again,
so the fd-release counters record actual descriptor releases.  Closing a
closed Go channel panics, recorded by `fault`.

`Wait` pcs: 0 `cmd.Wait()` (blocks until the child has exited, then sets
`cmd.ProcessState`), 1 `rx.Close()`, 2 `tx.Close()`, 3 `close(done)`,
4 returned.
`Shutdown` pcs: 0 `mu.Lock()`, 1 the `IsExited` check, 2 `tx.Close()`,
3 `rx.Close()`, 4 the `select` on the 30-second timer and `done`,
5 `<-done` after `syscall.Kill(-pgid, SIGKILL)`, 6 returned.
-/

/-- Scheduler choices: advance the `Wait` goroutine, advance the
`Shutdown` goroutine, let the child process exit on its own, or let the
30-second grace timer in `Shutdown`'s `select` fire. -/
inductive SchedStep
  | waitG
  | shutdownG
  | childExit
  | graceTimer
deriving DecidableEq

/-- Joint state of one supervisor's `Wait` and `Shutdown` goroutines,
its child process, its two owned pipe ends and its `done` channel, with
event counters for descriptor releases, `close(done)` calls and SIGKILLs
sent to the process group. -/
structure Sys where
  wPc : Nat
  sPc : Nat
  childExited : Bool
  processState : Bool
  rxClosed : Bool
  txClosed : Bool
  doneClosed : Bool
  nCloseRx : Nat
  nCloseTx : Nat
  nCloseDone : Nat
  nKill : Nat
  fault : Bool
deriving DecidableEq

/-- `p.rx.Close()`: releases the descriptor only on the first call
(`os.File` guards repeated closes internally). -/
def closeRxFile (s : Sys) : Sys :=
  if s.rxClosed then s
  else { s with rxClosed := true, nCloseRx := s.nCloseRx + 1 }

/-- `p.tx.Close()`: releases the descriptor only on the first call. -/
def closeTxFile (s : Sys) : Sys :=
  if s.txClosed then s
  else { s with txClosed := true, nCloseTx := s.nCloseTx + 1 }

/-- `close(p.done)`: closing an already-closed channel is a runtime
panic, recorded in `fault`. -/
def closeDoneChan (s : Sys) : Sys :=
  if s.doneClosed then
    { s with fault := true, nCloseDone := s.nCloseDone + 1 }
  else
    { s with doneClosed := true, nCloseDone := s.nCloseDone + 1 }

/-- One step of the `Plugin.Wait` goroutine. -/
def waitStep (s : Sys) : Sys :=
  if s.wPc = 0 then
    if s.childExited then { s with processState := true, wPc := 1 } else s
  else if s.wPc = 1 then { closeRxFile s with wPc := 2 }
  else if s.wPc = 2 then { closeTxFile s with wPc := 3 }
  else if s.wPc = 3 then { closeDoneChan s with wPc := 4 }
  else s

/-- One step of the `Plugin.Shutdown` goroutine (the grace-timer firing
is a separate scheduler event). -/
def shutdownStep (s : Sys) : Sys :=
  if s.sPc = 0 then { s with sPc := 1 }
  else if s.sPc = 1 then
    if s.processState then { s with sPc := 6 } else { s with sPc := 2 }
  else if s.sPc = 2 then { closeTxFile s with sPc := 3 }
  else if s.sPc = 3 then { closeRxFile s with sPc := 4 }
  else if s.sPc = 4 then
    if s.doneClosed then { s with sPc := 6 } else s
  else if s.sPc = 5 then
    if s.doneClosed then { s with sPc := 6 } else s
  else s

/-- The 30-second grace timer fires: only meaningful while `Shutdown`
is blocked in its `select` with `done` not yet closed; `Shutdown` then
sends one SIGKILL to the process group (which terminates the child) and
moves on to block on `done`. -/
def timerStep (s : Sys) : Sys :=
  if s.sPc = 4 ∧ s.doneClosed = false then
    { s with nKill := s.nKill + 1, childExited := true, sPc := 5 }
  else s

/-- Apply one scheduler choice. -/
def sysStep (a : SchedStep) (s : Sys) : Sys :=
  match a with
  | .waitG => waitStep s
  | .shutdownG => shutdownStep s
  | .childExit => if s.childExited then s else { s with childExited := true }
  | .graceTimer => timerStep s

/-- Run a schedule from a state. -/
def sysRun (sched : List SchedStep) (s : Sys) : Sys :=
  match sched with
  | [] => s
  | a :: rest => sysRun rest (sysStep a s)

/-- Initial state with a live child: both goroutines at their entry
points, nothing closed, no events yet. -/
def initLive : Sys :=
  { wPc := 0, sPc := 0, childExited := false, processState := false,
    rxClosed := false, txClosed := false, doneClosed := false,
    nCloseRx := 0, nCloseTx := 0, nCloseDone := 0, nKill := 0,
    fault := false }

/-- State in which the child has already exited and `Wait` has fully run
(`cmd.ProcessState` set, pipes closed, `done` fired), with event counters
restarted so they record only what a subsequent `Shutdown` call does. -/
def initExited : Sys :=
  { wPc := 4, sPc := 0, childExited := true, processState := true,
    rxClosed := true, txClosed := true, doneClosed := true,
    nCloseRx := 0, nCloseTx := 0, nCloseDone := 0, nKill := 0,
    fault := false }

/-- Safety invariant of the interleaved system: no panic, each
descriptor released at most once (and not before its `closed` flag is
set), `done` closed at most once and only by `Wait`'s final step, at
most one SIGKILL and none before the kill branch is reached, pipe ends
closed by the time `Shutdown` has passed the corresponding close
statements, exactly one SIGKILL sent whenever the kill branch was taken,
and `Shutdown` finishing through the kill branch only after `done`
fired. -/
def SysInv (s : Sys) : Prop :=
  s.fault = false ∧
  (s.rxClosed = false → s.nCloseRx = 0) ∧ s.nCloseRx ≤ 1 ∧
  (s.txClosed = false → s.nCloseTx = 0) ∧ s.nCloseTx ≤ 1 ∧
  (s.doneClosed = false → s.nCloseDone = 0) ∧ s.nCloseDone ≤ 1 ∧
  (s.wPc ≤ 3 → s.doneClosed = false) ∧
  (s.sPc ≤ 4 → s.nKill = 0) ∧ s.nKill ≤ 1 ∧
  (s.sPc = 3 ∨ s.sPc = 4 ∨ s.sPc = 5 → s.txClosed = true) ∧
  (s.sPc = 4 ∨ s.sPc = 5 → s.rxClosed = true) ∧
  (s.sPc = 5 → s.nKill = 1) ∧
  (s.sPc = 6 → s.nKill = 1 → s.doneClosed = true)

/-- Invariant of runs that start after the child already exited and
`Wait` completed: `Shutdown` stays on its check-and-return path and
performs no close, no kill and no fault. -/
def SysInvExited (s : Sys) : Prop :=
  s.processState = true ∧ s.childExited = true ∧ s.wPc = 4 ∧
  s.rxClosed = true ∧ s.txClosed = true ∧ s.doneClosed = true ∧
  (s.sPc = 0 ∨ s.sPc = 1 ∨ s.sPc = 6) ∧
  s.nKill = 0 ∧ s.nCloseRx = 0 ∧ s.nCloseTx = 0 ∧ s.nCloseDone = 0 ∧
  s.fault = false

/-- A payload one byte longer than the supervisor's configured reader
buffer (128 KiB), for exercising the oversized-frame scenario. -/
def oversizedPayload : List Nat := List.replicate 131073 7

/-- A marshalling function that exposes the timestamp on the wire:
one byte holding `timestamp % 256`. -/
def tsWire : Record → Except Err (List Nat) :=
  fun r => .ok [r.timestamp.toNat % 256]

/-- A schedule exercising the grace-timer path: `Shutdown` runs past its
closes, the timer fires (SIGKILL), `Wait` then reaps the killed child,
closes its ends and fires `done`, and `Shutdown` returns. -/
def killPathSched : List SchedStep :=
  [.shutdownG, .shutdownG, .shutdownG, .shutdownG, .graceTimer,
   .waitG, .waitG, .waitG, .waitG, .shutdownG]

theorem u32_roundtrip (n : Nat) (h : n < 2 ^ 32) :
    u32decode (u32encode n) = n := by
  simp only [u32encode, u32decode]
  omega

theorem readFull_exact (c : Nat) (l rest : List Nat) :
    readFull l.length ⟨c, l ++ rest⟩ = (.ok l, ⟨c, rest⟩) := by
  have h : l.length ≤ (l ++ rest).length := by simp
  simp [readFull, h, List.take_left, List.drop_left]

theorem readUint32LE_frame (c n : Nat) (rest : List Nat) :
    readUint32LE ⟨c, u32encode n ++ rest⟩ =
      (.ok (u32decode (u32encode n)), ⟨c, rest⟩) := by
  have h := readFull_exact c (u32encode n) rest
  simp only [readUint32LE]
  rw [show (4 : Nat) = (u32encode n).length from rfl, h]

theorem readUint32LE_take4 (c : Nat) (l : List Nat) (h : 4 ≤ l.length) :
    readUint32LE ⟨c, l⟩ = (.ok (u32decode (l.take 4)), ⟨c, l.drop 4⟩) := by
  simp [readUint32LE, readFull, h]

theorem sysStep_inv (a : SchedStep) (s : Sys) (h : SysInv s) :
    SysInv (sysStep a s) := by
  obtain ⟨hf, hrx0, hrx1, htx0, htx1, hd0, hd1, hw, hk0, hk1, hstx, hsrx,
    hk5, hk6⟩ := h
  cases a <;>
    simp only [sysStep, waitStep, shutdownStep, timerStep, closeRxFile,
      closeTxFile, closeDoneChan, SysInv] <;>
    split_ifs <;> simp_all

theorem sysRun_inv (sched : List SchedStep) (s : Sys) (h : SysInv s) :
    SysInv (sysRun sched s) := by
  induction sched generalizing s with
  | nil => exact h
  | cons a rest ih => exact ih (sysStep a s) (sysStep_inv a s h)

theorem sysStep_invExited (a : SchedStep) (s : Sys) (h : SysInvExited s) :
    SysInvExited (sysStep a s) := by
  obtain ⟨hp, hc, hw, hrx, htx, hd, hs, hk, h1, h2, h3, hf⟩ := h
  cases a <;>
    simp only [sysStep, waitStep, shutdownStep, timerStep, closeRxFile,
      closeTxFile, closeDoneChan, SysInvExited] <;>
    split_ifs <;> simp_all

theorem sysRun_invExited (sched : List SchedStep) (s : Sys)
    (h : SysInvExited s) : SysInvExited (sysRun sched s) := by
  induction sched generalizing s with
  | nil => exact h
  | cons a rest ih => exact ih (sysStep a s) (sysStep_invExited a s h)

theorem initLive_inv : SysInv initLive := by
  simp [SysInv, initLive]

theorem initExited_inv : SysInvExited initExited := by
  simp [SysInvExited, initExited]

theorem initExited_sysInv : SysInv initExited := by
  simp [SysInv, initExited]

theorem receiveDataWithSize_ok {ρ : Type} (unm : List Nat → Option ρ)
    (payload rest : List Nat) (p : PluginSt) (rec : ρ)
    (hlen : payload.length < 2 ^ 32)
    (hdata : p.reader.data = frameBytes payload ++ rest)
    (hu : unm payload = some rec) :
    receiveDataWithSize unm p =
      (.ok rec,
       { p with reader := ⟨p.reader.cap, rest⟩,
                txCnt := (p.txCnt + 1) % 2 ^ 64,
                txBytes := (p.txBytes + payload.length) % 2 ^ 64 }) := by
  obtain ⟨⟨c, data⟩, a1, a2, a3, a4⟩ := p
  simp only at hdata
  subst hdata
  simp only [receiveDataWithSize, frameBytes, List.append_assoc,
    readUint32LE_frame, u32_roundtrip payload.length hlen,
    readFull_exact, hu]

theorem receiveDataWithSize_badData {ρ : Type} (unm : List Nat → Option ρ)
    (payload rest : List Nat) (p : PluginSt)
    (hlen : payload.length < 2 ^ 32)
    (hdata : p.reader.data = frameBytes payload ++ rest)
    (hu : unm payload = none) :
    receiveDataWithSize unm p =
      (.error .badData, { p with reader := ⟨p.reader.cap, rest⟩ }) := by
  obtain ⟨⟨c, data⟩, a1, a2, a3, a4⟩ := p
  simp only at hdata
  subst hdata
  simp only [receiveDataWithSize, frameBytes, List.append_assoc,
    readUint32LE_frame, u32_roundtrip payload.length hlen,
    readFull_exact, hu]

theorem receiveDataWithSize_empty {ρ : Type} (unm : List Nat → Option ρ)
    (p : PluginSt) (hdata : p.reader.data = []) :
    receiveDataWithSize unm p = (.error .eof, p) := by
  obtain ⟨⟨c, data⟩, a1, a2, a3, a4⟩ := p
  simp only at hdata
  subst hdata
  simp [receiveDataWithSize, readUint32LE, readFull]

theorem readFull_error (n : Nat) (r : Reader) (e : Err) (r1 : Reader)
    (h : readFull n r = (.error e, r1)) : e = .eof := by
  simp only [readFull] at h
  split_ifs at h <;> simp_all

theorem readUint32LE_error (r : Reader) (e : Err) (r1 : Reader)
    (h : readUint32LE r = (.error e, r1)) : e = .eof := by
  simp only [readUint32LE] at h
  rcases h4 : readFull 4 r with ⟨res, r2⟩
  rw [h4] at h
  cases res with
  | ok bs => simp at h
  | error e2 =>
    simp at h
    exact h.1 ▸ readFull_error 4 r e2 r2 h4

theorem receiveDataWithSize_not_bufferFull {ρ : Type}
    (unm : List Nat → Option ρ) (p : PluginSt) :
    (receiveDataWithSize unm p).1 ≠ .error .bufferFull := by
  unfold receiveDataWithSize
  rcases h1 : readUint32LE p.reader with ⟨res1, r1⟩
  cases res1 with
  | error e =>
    have he := readUint32LE_error p.reader e r1 h1
    subst he
    simp
  | ok l =>
    rcases h2 : readFull l r1 with ⟨res2, r2⟩
    cases res2 with
    | error e =>
      have he := readFull_error l r1 e r2 h2
      subst he
      simp [h2]
    | ok msg =>
      cases h3 : unm msg <;> simp [h2, h3]


theorem peek_exact (c : Nat) (l rest : List Nat) (hcap : l.length ≤ c) :
    peek l.length ⟨c, l ++ rest⟩ = (.ok l, ⟨c, l ++ rest⟩) := by
  have hlt : ¬ c < l.length := by omega
  have hle : l.length ≤ (l ++ rest).length := by simp
  simp [peek, hlt, hle, List.take_left]

theorem peek_bufferFull (c n : Nat) (data : List Nat) (h : c < n) :
    peek n ⟨c, data⟩ = (.error .bufferFull, ⟨c, data⟩) := by
  simp [peek, h]

theorem discard_exact (c : Nat) (l rest : List Nat) :
    discard l.length ⟨c, l ++ rest⟩ = (.ok (), ⟨c, rest⟩) := by
  have hle : l.length ≤ (l ++ rest).length := by simp
  simp [discard, hle, List.drop_left]

theorem ReceiveTask_ok {τ : Type} (unm : List Nat → Option τ)
    (payload rest : List Nat) (c : Nat) (t : τ)
    (hlen : payload.length < 2 ^ 32) (hcap : payload.length ≤ c)
    (hu : unm payload = some t) :
    ReceiveTask unm ⟨c, frameBytes payload ++ rest⟩ = (.ok t, ⟨c, rest⟩) := by
  simp only [ReceiveTask, frameBytes, List.append_assoc, readUint32LE_frame,
    u32_roundtrip payload.length hlen, peek_exact c payload rest hcap,
    discard_exact c payload rest, hu]

theorem ReceiveTask_badData {τ : Type} (unm : List Nat → Option τ)
    (payload rest : List Nat) (c : Nat)
    (hlen : payload.length < 2 ^ 32) (hcap : payload.length ≤ c)
    (hu : unm payload = none) :
    ReceiveTask unm ⟨c, frameBytes payload ++ rest⟩ =
      (.error .badData, ⟨c, rest⟩) := by
  simp only [ReceiveTask, frameBytes, List.append_assoc, readUint32LE_frame,
    u32_roundtrip payload.length hlen, peek_exact c payload rest hcap,
    discard_exact c payload rest, hu]

theorem ReceiveTask_bufferFull {τ : Type} (unm : List Nat → Option τ)
    (payload rest : List Nat) (c : Nat)
    (hlen : payload.length < 2 ^ 32) (hcap : c < payload.length) :
    ReceiveTask unm ⟨c, frameBytes payload ++ rest⟩ =
      (.error .bufferFull, ⟨c, payload ++ rest⟩) := by
  simp only [ReceiveTask, frameBytes, List.append_assoc, readUint32LE_frame,
    u32_roundtrip payload.length hlen,
    peek_bufferFull c payload.length (payload ++ rest) hcap]

theorem receiveLoop_succ_ok {ρ : Type} (unm : List Nat → Option ρ)
    (fuel : Nat) (st st1 : PluginSt) (rec : ρ)
    (h : receiveDataWithSize unm st = (.ok rec, st1)) :
    receiveLoop unm (fuel + 1) st =
      ((rec, false) :: (receiveLoop unm fuel st1).1,
       (receiveLoop unm fuel st1).2) := by
  simp [receiveLoop, h]

theorem receiveLoop_succ_eof {ρ : Type} (unm : List Nat → Option ρ)
    (fuel : Nat) (st st1 : PluginSt)
    (h : receiveDataWithSize unm st = (.error .eof, st1)) :
    receiveLoop unm (fuel + 1) st = ([], st1) := by
  simp [receiveLoop, h]

theorem receiveLoop_two_frames {ρ : Type} (unm : List Nat → Option ρ)
    (p1 p2 : List Nat) (r1 r2 : ρ) (st : PluginSt)
    (h1 : p1.length < 2 ^ 32) (h2 : p2.length < 2 ^ 32)
    (hu1 : unm p1 = some r1) (hu2 : unm p2 = some r2)
    (hdata : st.reader.data = frameBytes p1 ++ frameBytes p2) :
    (receiveLoop unm 3 st).1 = [(r1, false), (r2, false)] := by
  obtain ⟨⟨cp, data⟩, a1, a2, a3, a4⟩ := st
  simp only at hdata
  subst hdata
  have e1 := receiveDataWithSize_ok unm p1 (frameBytes p2)
    ⟨⟨cp, frameBytes p1 ++ frameBytes p2⟩, a1, a2, a3, a4⟩ r1 h1 rfl hu1
  have e2 := receiveDataWithSize_ok unm p2 []
    ⟨⟨cp, frameBytes p2⟩, a1, a2, (a3 + p1.length) % 2 ^ 64,
     (a4 + 1) % 2 ^ 64⟩ r2 h2 (List.append_nil (frameBytes p2)).symm hu2
  have e3 := receiveDataWithSize_empty unm
    ⟨⟨cp, []⟩, a1, a2, ((a3 + p1.length) % 2 ^ 64 + p2.length) % 2 ^ 64,
     ((a4 + 1) % 2 ^ 64 + 1) % 2 ^ 64⟩ rfl
  rw [show (3 : Nat) = 2 + 1 from rfl, receiveLoop_succ_ok unm 2 _ _ r1 e1,
    show (2 : Nat) = 1 + 1 from rfl]
  rw [receiveLoop_succ_ok unm 1 _ _ r2 e2,
    show (1 : Nat) = 0 + 1 from rfl]
  rw [receiveLoop_succ_eof unm 0 _ _ e3]

/-- C1 (counterexample): the round-trip claim quantifies over every
payload length representable in 32 bits, but the client's `ReceiveTask`
path fails with `bufio.ErrBufferFull` as soon as the declared length
exceeds the reader's buffer capacity: with capacity 4 and a well-formed
frame carrying the 5-byte payload `[6, 6, 6, 6, 6]` (5 < 2 ^ 32), the
read returns an error instead of the original message. -/
theorem frame_roundtrip_receiveTask_cex :
    (5 : Nat) < 2 ^ 32 ∧
    (ReceiveTask (fun bs => some bs) ⟨4, frameBytes [6, 6, 6, 6, 6]⟩).1
      = .error .bufferFull := by
  decide

/-- C1 (amended): frame round-trip.  A message `m` marshalled to `buf`
(with `unm buf = some m`, the protobuf round-trip contract, and
`buf.length < 2 ^ 32`) and written as one frame — the byte sequence the
hook-free `SendRecord` appends and the one the supervisor's `Task` loop
writes — is returned intact by the supervisor's `receiveDataWithSize`
with the trailing stream preserved, and by the client's `ReceiveTask`
provided the payload length does not exceed the reader's buffer
capacity (the restriction the original claim lacks). -/
theorem frame_roundtrip_amended {ρ : Type} (unm : List Nat → Option ρ)
    (m : ρ) (buf rest : List Nat) (p : PluginSt)
    (hinv : unm buf = some m) (hlen : buf.length < 2 ^ 32)
    (hdata : p.reader.data = frameBytes buf ++ rest) :
    (∀ (marshal : Record → Except Err (List Nat)) (c0 : Client) (rec : Record),
      c0.hook = none → marshal { rec with timestamp := c0.clockNow } = .ok buf →
      (SendRecord marshal c0 rec).2.1.output = c0.output ++ frameBytes buf) ∧
    taskFrameBytes buf = frameBytes buf ∧
    ((receiveDataWithSize unm p).1 = .ok m ∧
     (receiveDataWithSize unm p).2.reader.data = rest) ∧
    (∀ c : Nat, buf.length ≤ c →
      ReceiveTask unm ⟨c, frameBytes buf ++ rest⟩ = (.ok m, ⟨c, rest⟩)) := by
  refine ⟨?_, rfl, ?_, ?_⟩
  · intro marshal c0 rec hhook hm
    simp [SendRecord, hhook, hm]
  · rw [receiveDataWithSize_ok unm buf rest p m hlen hdata hinv]
    exact ⟨rfl, rfl⟩
  · intro c hc
    exact ReceiveTask_ok unm buf rest c m hlen hc hinv

/-- C1 (witness): the amended round-trip at the concrete payload
`[7, 8]` with trailing stream `[9]` and reader capacity 4096. -/
theorem frame_roundtrip_amended_witness :
    ((receiveDataWithSize (fun bs => some bs)
        ⟨⟨4096, frameBytes [7, 8] ++ [9]⟩, 0, 0, 0, 0⟩).1 = .ok [7, 8] ∧
     (receiveDataWithSize (fun bs => some bs)
        ⟨⟨4096, frameBytes [7, 8] ++ [9]⟩, 0, 0, 0, 0⟩).2.reader.data = [9]) ∧
    ReceiveTask (fun bs => some bs) ⟨4096, frameBytes [7, 8] ++ [9]⟩
      = (.ok [7, 8], ⟨4096, [9]⟩) := by
  have h := frame_roundtrip_amended (fun bs => some bs) [7, 8] [7, 8] [9]
    ⟨⟨4096, frameBytes [7, 8] ++ [9]⟩, 0, 0, 0, 0⟩ rfl (by decide) rfl
  exact ⟨h.2.2.1, h.2.2.2 4096 (by decide)⟩

/-- C2: the Shutdown contract over the interleaving model.  From the
already-exited start, every schedule yields zero SIGKILLs, zero pipe
closes by `Shutdown` and no fault, and two `Shutdown` steps suffice to
return (the check-and-return path — "returns immediately").  From the
live start, every schedule keeps at most one SIGKILL and no fault; once
`Shutdown` has passed its close statements both owned pipe ends are
closed; the kill branch is reached with exactly one SIGKILL sent; and a
`Shutdown` that returns after killing does so only once `done` has
fired.  The 30-second grace period is represented by the `graceTimer`
scheduler event, which is enabled only while `done` has not fired. -/
theorem shutdown_contract (sched : List SchedStep) :
    ((sysRun sched initExited).nKill = 0 ∧
     (sysRun sched initExited).nCloseTx = 0 ∧
     (sysRun sched initExited).nCloseRx = 0 ∧
     (sysRun sched initExited).fault = false) ∧
    (sysRun [.shutdownG, .shutdownG] initExited).sPc = 6 ∧
    ((sysRun sched initLive).fault = false ∧
     (sysRun sched initLive).nKill ≤ 1 ∧
     ((sysRun sched initLive).sPc = 5 →
       (sysRun sched initLive).nKill = 1 ∧
       (sysRun sched initLive).txClosed = true ∧
       (sysRun sched initLive).rxClosed = true) ∧
     ((sysRun sched initLive).sPc = 6 → (sysRun sched initLive).nKill = 1 →
       (sysRun sched initLive).doneClosed = true)) := by
  obtain ⟨hp, hc, hw, hrx, htx, hd, hs, hk, hcr, hct, hcd, hf⟩ :=
    sysRun_invExited sched initExited initExited_inv
  obtain ⟨gf, _, _, _, _, _, _, _, gk0, gk1, gstx, gsrx, gk5, gk6⟩ :=
    sysRun_inv sched initLive initLive_inv
  refine ⟨⟨hk, hct, hcr, hf⟩, by decide, gf, gk1, ?_, gk6⟩
  intro h5
  exact ⟨gk5 h5, gstx (Or.inr (Or.inr h5)), gsrx (Or.inr h5)⟩

/-- C2 (witness): a concrete schedule through the grace-timer path —
`Shutdown` closes both ends, the timer fires one SIGKILL, `Wait` reaps
the killed child and fires `done`, and `Shutdown` returns with `done`
observed fired and exactly one SIGKILL recorded. -/
theorem shutdown_contract_witness :
    (sysRun killPathSched initLive).doneClosed = true ∧
    (sysRun killPathSched initLive).nKill = 1 ∧
    (sysRun [.shutdownG, .shutdownG] initExited).sPc = 6 := by
  have h := shutdown_contract killPathSched
  have h6 : (sysRun killPathSched initLive).sPc = 6 := by decide
  have hk : (sysRun killPathSched initLive).nKill = 1 := by decide
  exact ⟨h.2.2.2.2.2 h6 hk, hk, h.2.1⟩

/-- C3: `SendTask` never blocks.  The try-send on the unbuffered
`taskCh` succeeds exactly when the dispatcher loop is parked at its
`select` able to receive; whenever the single outbound slot is occupied
(dispatcher working) or the loop has returned, the busy error is
returned immediately; and the returned state is absorbing under every
dispatcher step, so every call after the loop has exited gets the busy
error rather than blocking. -/
theorem sendTask_nonblocking (d : DState) (a b g : Bool) :
    SendTask .atSelect = .ok () ∧
    (d ≠ .atSelect → SendTask d = .error sendTaskBusyMsg) ∧
    dispatcherStep a b g .exited = .exited ∧
    SendTask .exited = .error sendTaskBusyMsg := by
  refine ⟨rfl, ?_, rfl, rfl⟩
  intro hd
  cases d with
  | atSelect => exact absurd rfl hd
  | working => rfl
  | exited => rfl

/-- C3 (witness): the busy error at the two non-ready dispatcher
states, concretely. -/
theorem sendTask_nonblocking_witness :
    SendTask .working = .error sendTaskBusyMsg ∧
    SendTask .exited = .error sendTaskBusyMsg ∧
    dispatcherStep true true true .exited = .exited := by
  have h := sendTask_nonblocking .working true true true
  exact ⟨h.2.1 (by decide), h.2.2.2, h.2.2.1⟩

/-- C4 (counterexample): a `GetState` call whose elapsed interval is
zero returns all-zero rates but does NOT reset the counters — with 1000
accumulated rx bytes the post-state still holds 1000, contradicting
"every call resets all four counters". -/
theorem getState_zero_interval_cex :
    GetState 0 ⟨1000, 0, 0, 0, 0⟩ = (⟨0, 0, 0, 0⟩, ⟨1000, 0, 0, 0, 0⟩) ∧
    (1000 : Nat) ≠ 0 := by
  constructor
  · norm_num [GetState]
  · decide

/-- C4 (amended): `GetState` resets all four counters exactly when the
elapsed interval is nonzero, returning each counter divided by the
interval; a zero-interval call returns all-zero rates and leaves the
counters untouched; and after a nonzero-interval call, an immediate
second call with no new traffic reports all-zero rates (the counters
were consumed by the first sampling). -/
theorem getState_amended (p : CounterSt) (now now2 : ℚ) :
    (now - p.updateTime ≠ 0 →
      GetState now p =
        (⟨(p.rxBytes : ℚ) / (now - p.updateTime),
          (p.txBytes : ℚ) / (now - p.updateTime),
          (p.rxCnt : ℚ) / (now - p.updateTime),
          (p.txCnt : ℚ) / (now - p.updateTime)⟩,
         ⟨0, 0, 0, 0, now⟩)) ∧
    (now - p.updateTime = 0 →
      GetState now p = (⟨0, 0, 0, 0⟩, { p with updateTime := now })) ∧
    (now - p.updateTime ≠ 0 →
      (GetState now2 (GetState now p).2).1 = ⟨0, 0, 0, 0⟩) := by
  refine ⟨?_, ?_, ?_⟩
  · intro h
    simp [GetState, h]
  · intro h
    simp [GetState, h]
  · intro h
    have h1 : (GetState now p).2 = ⟨0, 0, 0, 0, now⟩ := by simp [GetState, h]
    rw [h1]
    by_cases h2 : now2 - now = 0
    · simp [GetState, h2]
    · simp [GetState, h2]

/-- C4 (witness): 1000 accumulated rx bytes over a 2-second interval
report a 500 bytes/sec receive rate with all counters consumed, and the
immediate (or any later) second call with no new traffic reports
all-zero rates. -/
theorem getState_amended_witness :
    GetState 2 ⟨1000, 0, 0, 0, 0⟩ = (⟨500, 0, 0, 0⟩, ⟨0, 0, 0, 0, 2⟩) ∧
    (GetState 3 (GetState 2 ⟨1000, 0, 0, 0, 0⟩).2).1 = ⟨0, 0, 0, 0⟩ := by
  have h := getState_amended ⟨1000, 0, 0, 0, 0⟩ 2 3
  refine ⟨?_, h.2.2 (by norm_num)⟩
  have h1 := h.1 (by norm_num)
  rw [h1]
  norm_num

/-- C5 (counterexample): a `ReceiveTask` call that successfully reads a
length prefix (it decodes 5) but whose peek fails on the buffer policy
(capacity 4) consumes none of the 5 declared payload bytes — they all
remain in the stream, contradicting "every ReceiveTask call that
successfully reads a length prefix consumes exactly that many payload
bytes". -/
theorem stream_alignment_cex :
    (readUint32LE ⟨4, frameBytes [9, 8, 7, 6, 5]⟩).1 = .ok 5 ∧
    (ReceiveTask (fun bs => some bs) ⟨4, frameBytes [9, 8, 7, 6, 5]⟩).2.data
      = [9, 8, 7, 6, 5] := by
  decide

/-- C5 (amended): stream alignment.  Whenever the declared length fits
the client reader's buffer capacity, a `ReceiveTask` call consumes
exactly `length + 4` bytes — whatever the deserialization outcome; and
the supervisor's `receiveDataWithSize` always reads the full declared
payload before unmarshalling, consuming exactly `length + 4` bytes even
when deserialization fails.  When the peek fails the prefix alone is
consumed (see the counterexample and C10). -/
theorem stream_alignment_amended {τ ρ : Type} (unm1 : List Nat → Option τ)
    (unm2 : List Nat → Option ρ) (payload rest : List Nat) (c : Nat)
    (p : PluginSt) (hlen : payload.length < 2 ^ 32) :
    (payload.length ≤ c →
      (ReceiveTask unm1 ⟨c, frameBytes payload ++ rest⟩).2 = ⟨c, rest⟩) ∧
    (p.reader.data = frameBytes payload ++ rest →
      (receiveDataWithSize unm2 p).2.reader.data = rest) := by
  constructor
  · intro hc
    cases hu : unm1 payload with
    | some t => rw [ReceiveTask_ok unm1 payload rest c t hlen hc hu]
    | none => rw [ReceiveTask_badData unm1 payload rest c hlen hc hu]
  · intro hdata
    cases hu : unm2 payload with
    | some rec =>
      rw [receiveDataWithSize_ok unm2 payload rest p rec hlen hdata hu]
    | none =>
      rw [receiveDataWithSize_badData unm2 payload rest p hlen hdata hu]

/-- C5 (witness): both paths at a 2-byte payload with a failing
unmarshaller — the frame is fully consumed on both sides even though
deserialization fails. -/
theorem stream_alignment_amended_witness :
    (ReceiveTask (fun _ => (none : Option (List Nat)))
        ⟨100, frameBytes [1, 2] ++ [3]⟩).2 = ⟨100, [3]⟩ ∧
    (receiveDataWithSize (fun _ => (none : Option (List Nat)))
        ⟨⟨100, frameBytes [1, 2] ++ [3]⟩, 0, 0, 0, 0⟩).2.reader.data = [3] := by
  have h := stream_alignment_amended (fun _ => (none : Option (List Nat)))
    (fun _ => (none : Option (List Nat))) [1, 2] [3] 100
    ⟨⟨100, frameBytes [1, 2] ++ [3]⟩, 0, 0, 0, 0⟩ (by decide)
  exact ⟨h.1 (by decide), h.2 rfl⟩

/-- C6 (code bug exhibited): a successful receive of one well-formed
frame with the 5-byte payload `[9, 9, 9, 9, 9]` forwards the decoded
record to the sink tagged non-debug (`false`), but credits the traffic
to the TRANSMIT counters: `txBytes` becomes 5 and `txCnt` becomes 1
while `rxBytes` and `rxCnt` stay 0 — the code increments `p.txCnt` and
`p.txBytes` inside `receiveDataWithSize`, contradicting its own
"rx/tx, all from the agent perspective" field naming and the claim that
the receive-direction counters are updated. -/
theorem receive_counters_credited_to_tx :
    receiveLoop (fun bs => some bs) 2
        ⟨⟨pluginReaderSize, frameBytes [9, 9, 9, 9, 9]⟩, 0, 0, 0, 0⟩ =
      ([([9, 9, 9, 9, 9], false)], ⟨⟨pluginReaderSize, []⟩, 0, 0, 5, 1⟩) := by
  decide

/-- C7 (counterexample): presented with one frame whose declared length
(131073) exceeds the configured 128 KiB buffering policy followed by one
normal frame, the receive loop delivers BOTH frames — it neither skips
the first nor terminates, because `receiveDataWithSize` reads via
`io.ReadFull`, which is not limited by the buffer size. -/
theorem oversized_frame_cex :
    pluginReaderSize < oversizedPayload.length ∧
    (receiveLoop (fun bs => some bs) 3
        ⟨⟨pluginReaderSize,
          frameBytes oversizedPayload ++ frameBytes [1, 2, 3]⟩,
         0, 0, 0, 0⟩).1
      = [(oversizedPayload, false), ([1, 2, 3], false)] := by
  constructor
  · norm_num [pluginReaderSize, oversizedPayload]
  · exact receiveLoop_two_frames (fun bs => some bs) oversizedPayload [1, 2, 3]
      oversizedPayload [1, 2, 3] _ (by norm_num [oversizedPayload]) (by decide)
      rfl rfl rfl

/-- C7 (amended): the supervisor's receive path imposes no frame-size
policy at all: any two well-formed frames — the first one oversized
relative to the configured reader buffer — are both read fully and
delivered in order, and `receiveDataWithSize` can never return the
buffer-full error, so the loop's log-and-skip branch for it is
unreachable from this read path. -/
theorem oversized_frame_amended {ρ : Type} (unm : List Nat → Option ρ)
    (p1 p2 : List Nat) (r1 r2 : ρ) (st q : PluginSt)
    ( _hover : pluginReaderSize < p1.length) (h1 : p1.length < 2 ^ 32)
    (h2 : p2.length < 2 ^ 32) (hu1 : unm p1 = some r1)
    (hu2 : unm p2 = some r2)
    (hdata : st.reader.data = frameBytes p1 ++ frameBytes p2) :
    (receiveLoop unm 3 st).1 = [(r1, false), (r2, false)] ∧
    (receiveDataWithSize unm q).1 ≠ .error .bufferFull := by
  exact ⟨receiveLoop_two_frames unm p1 p2 r1 r2 st h1 h2 hu1 hu2 hdata,
    receiveDataWithSize_not_bufferFull unm q⟩

/-- C7 (witness): the amended statement at a concrete oversized first
frame (131073 bytes of 7) followed by the normal frame `[4, 5]`. -/
theorem oversized_frame_amended_witness :
    (receiveLoop (fun bs => some bs) 3
        ⟨⟨pluginReaderSize,
          frameBytes oversizedPayload ++ frameBytes [4, 5]⟩,
         0, 0, 0, 0⟩).1
      = [(oversizedPayload, false), ([4, 5], false)] ∧
    (receiveDataWithSize (fun bs => some bs)
        ⟨⟨pluginReaderSize, []⟩, 0, 0, 0, 0⟩).1 ≠ .error .bufferFull := by
  exact oversized_frame_amended (fun bs => some bs) oversizedPayload [4, 5]
    oversizedPayload [4, 5]
    ⟨⟨pluginReaderSize, frameBytes oversizedPayload ++ frameBytes [4, 5]⟩,
     0, 0, 0, 0⟩
    ⟨⟨pluginReaderSize, []⟩, 0, 0, 0, 0⟩
    (by norm_num [pluginReaderSize, oversizedPayload])
    (by norm_num [oversizedPayload]) (by decide) rfl rfl rfl

/-- C8 (counterexample): `SendElkeid` does not stamp the record.  With
a marshaller that puts the timestamp on the wire, a record with
timestamp 0 sent at clock time 42 produces the frame `[1,0,0,0,0]` and
leaves the record's timestamp at 0, whereas stamping-then-framing (what
the claim describes) would produce `[1,0,0,0,42]`. -/
theorem sendElkeid_no_stamp_cex :
    (SendElkeid (fun _ => 1) tsWire ⟨[], none, 42⟩ ⟨0, []⟩).2.1.output
      = [1, 0, 0, 0, 0] ∧
    (SendElkeid (fun _ => 1) tsWire ⟨[], none, 42⟩ ⟨0, []⟩).2.2.timestamp
      = 0 ∧
    frameBytes [(42 : Int).toNat % 256] = [1, 0, 0, 0, 42] := by
  decide

/-- C8 (amended): `SendElkeid` frames and writes the marshalled record
directly — one `uint32(Size())` prefix then the payload — bypassing any
installed send-hook and leaving the record (in particular its
timestamp) unmodified; the current-time stamping happens only in
`SendRecord`. -/
theorem sendElkeid_amended (size : Record → Nat)
    (marshal : Record → Except Err (List Nat)) (c : Client) (rec : Record)
    (buf : List Nat) (g : Option (Record → Except Err Unit))
    (hm : marshal rec = .ok buf) (hsz : size rec = buf.length) :
    SendElkeid size marshal c rec =
      (.ok (), { c with output := c.output ++ frameBytes buf }, rec) ∧
    (SendElkeid size marshal { c with hook := g } rec).2.1.output
      = c.output ++ frameBytes buf ∧
    (SendRecord marshal { c with hook := none } rec).2.2.timestamp
      = c.clockNow := by
  refine ⟨?_, ?_, ?_⟩
  · simp [SendElkeid, hm, hsz, frameBytes, List.append_assoc]
  · simp [SendElkeid, hm, hsz, frameBytes, List.append_assoc]
  · cases hms : marshal { rec with timestamp := c.clockNow } <;>
      simp [SendRecord, hms]

/-- C8 (witness): the amended statement at a concrete record with
timestamp 5 and a one-byte timestamp-revealing marshaller. -/
theorem sendElkeid_amended_witness :
    (SendElkeid (fun _ => 1) tsWire ⟨[], none, 7⟩ ⟨5, []⟩).2.1.output
      = [1, 0, 0, 0, 5] ∧
    (SendRecord tsWire ⟨[], none, 7⟩ ⟨5, []⟩).2.2.timestamp = 7 := by
  have h := sendElkeid_amended (fun _ => 1) tsWire ⟨[], none, 7⟩ ⟨5, []⟩
    [5] none rfl rfl
  constructor
  · rw [h.1]
    decide
  · exact h.2.2

/-- C9: in every interleaving of `Wait` (natural exit) and `Shutdown`,
each pipe descriptor is released at most once, the `done` channel is
closed at most once, and no close-of-closed-channel fault occurs —
`os.File.Close` is idempotent and `done` is closed only by `Wait`'s
single final step. -/
theorem shutdown_exit_race_safe (sched : List SchedStep) :
    (sysRun sched initLive).nCloseRx ≤ 1 ∧
    (sysRun sched initLive).nCloseTx ≤ 1 ∧
    (sysRun sched initLive).nCloseDone ≤ 1 ∧
    (sysRun sched initLive).fault = false := by
  obtain ⟨hf, _, hrx1, _, htx1, _, hd1, _⟩ :=
    sysRun_inv sched initLive initLive_inv
  exact ⟨hrx1, htx1, hd1, hf⟩

/-- C10: a `ReceiveTask` whose decoded length prefix exceeds the
reader's capacity returns the buffer-full error from the peek having
consumed exactly the 4 prefix bytes: all declared payload bytes stay in
the stream, and the next framed read decodes the first four payload
bytes as its length prefix. -/
theorem receiveTask_bufferFull_misaligns {τ : Type}
    (unm : List Nat → Option τ) (payload rest : List Nat) (c : Nat)
    (hlen : payload.length < 2 ^ 32) (hcap : c < payload.length) :
    ReceiveTask unm ⟨c, frameBytes payload ++ rest⟩ =
      (.error .bufferFull, ⟨c, payload ++ rest⟩) ∧
    (4 ≤ (payload ++ rest).length →
      (readUint32LE ⟨c, payload ++ rest⟩).1
        = .ok (u32decode ((payload ++ rest).take 4))) := by
  refine ⟨ReceiveTask_bufferFull unm payload rest c hlen hcap, ?_⟩
  intro h4
  rw [readUint32LE_take4 c (payload ++ rest) h4]

/-- C10 (witness): capacity 4, declared length 5 — the error is
buffer-full, the stream keeps all 5 payload bytes, and the next read
decodes `[1, 2, 3, 4]` as the length 67305985. -/
theorem receiveTask_bufferFull_misaligns_witness :
    ReceiveTask (fun bs => some bs) ⟨4, frameBytes [1, 2, 3, 4, 5]⟩ =
      (.error .bufferFull, ⟨4, [1, 2, 3, 4, 5]⟩) ∧
    (readUint32LE ⟨4, [1, 2, 3, 4, 5]⟩).1 = .ok 67305985 := by
  have h := receiveTask_bufferFull_misaligns (fun bs => some bs)
    [1, 2, 3, 4, 5] [] 4 (by decide) (by decide)
  constructor
  · exact h.1
  · exact (h.2 (by decide)).trans (by decide)

end Hades
